import Mathlib

/-!
Verification of the icenet2 data preprocessing and loading engine
(`icenet2/utils.py`) against its natural-language specification.

Modelling conventions:

* Calendar dates are integers counting days since 1970-01-01
  (`datetime` plus `relativedelta(days=k)` is integer addition).
  The `month`/`day` fields of a date are recovered with the exact
  proleptic-Gregorian conversion (`civilFromDays` below).
* IEEE floating-point numbers are modelled as `EFloat`: an exact rational
  or one of the non-finite values NaN, +inf, -inf, with the IEEE special-value
  rules for arithmetic (division by zero, 0 * inf, NaN propagation).
  Rounding of finite values is not modelled; no claim depends on it.
* 2-D numpy arrays are `Grid α`: explicit row/column counts plus a cell
  function (values outside the bounds are junk and never inspected).
* Fallible operations (missing dict keys, `np.max` of an empty list,
  numpy shape errors, `np.load` of an absent file) return `Option`,
  with `none` for the raised exception.
* On-disk daily artifacts are a function from (hemisphere, variable name,
  format, date) to `Option (Grid EFloat)` in the loader environment;
  `none` means the `.npy` file does not exist.  Keying by date is
  equivalent to the `{:04d}_{:02d}_{:02d}.npy` path template, which is
  injective in the date.
-/

/-- Day-count calendar date (days since 1970-01-01). -/
abbrev Date := Int

/-- Hemisphere tag: the strings `'nh'` / `'sh'` of the source. -/
inductive Hemi where
  | nh
  | sh
deriving DecidableEq, Inhabited

/-- Proleptic-Gregorian (year, month, day) of a day count, Howard Hinnant's
`civil_from_days` algorithm; this is the date arithmetic `datetime` uses.
All intermediate quantities are non-negative for the dates of interest
(`z + 719468 ≥ 0`), where every integer-division convention agrees. -/
def civilFromDays (z0 : Int) : Int × Int × Int :=
  let z : Int := z0 + 719468
  let era : Int := (if 0 ≤ z then z else z - 146096) / 146097
  let doe : Int := z - era * 146097
  let yoe : Int := (doe - doe / 1460 + doe / 36524 - doe / 146096) / 365
  let doy : Int := doe - (365 * yoe + yoe / 4 - yoe / 100)
  let mp : Int := (5 * doy + 2) / 153
  let d : Int := doy - (153 * mp + 2) / 5 + 1
  let m : Int := mp + (if mp < 10 then 3 else (-9))
  (yoe + era * 400 + (if m ≤ 2 then 1 else 0), m, d)

/-- Calendar month (1..12) of a date, as Python's `date.month`. -/
def monthOf (d : Date) : Int := (civilFromDays d).2.1

/-- Day-of-month of a date, as Python's `date.day`. -/
def dayOf (d : Date) : Int := (civilFromDays d).2.2

/-- Sanity check: day 0 is 1970-01-01. -/
lemma monthOf_epoch_day : monthOf 0 = 1 ∧ dayOf 0 = 1 := by decide

/-- Sanity check: day 59 is 1970-03-01 (1970 is not a leap year). -/
lemma monthOf_day59 : monthOf 59 = 3 ∧ dayOf 59 = 1 := by decide

/-- IEEE floating-point value: an exact finite rational or a special value.
Finite-precision rounding is not modelled. -/
inductive EFloat where
  | fin (q : ℚ)
  | pinf
  | ninf
  | nan
deriving DecidableEq

namespace EFloat

/-- IEEE addition on special values; exact on finite values. -/
def add : EFloat → EFloat → EFloat
  | nan, _ => nan
  | _, nan => nan
  | pinf, ninf => nan
  | ninf, pinf => nan
  | pinf, _ => pinf
  | _, pinf => pinf
  | ninf, _ => ninf
  | _, ninf => ninf
  | fin a, fin b => fin (a + b)

/-- IEEE negation. -/
def neg : EFloat → EFloat
  | fin a => fin (-a)
  | pinf => ninf
  | ninf => pinf
  | nan => nan

/-- IEEE subtraction. -/
def sub (a b : EFloat) : EFloat := a.add b.neg

/-- IEEE multiplication: `0 * inf = NaN`, NaN propagates. -/
def mul : EFloat → EFloat → EFloat
  | nan, _ => nan
  | _, nan => nan
  | fin a, fin b => fin (a * b)
  | fin a, pinf => if a = 0 then nan else if 0 < a then pinf else ninf
  | fin a, ninf => if a = 0 then nan else if 0 < a then ninf else pinf
  | pinf, fin b => if b = 0 then nan else if 0 < b then pinf else ninf
  | ninf, fin b => if b = 0 then nan else if 0 < b then ninf else pinf
  | pinf, pinf => pinf
  | ninf, ninf => pinf
  | pinf, ninf => ninf
  | ninf, pinf => ninf

/-- IEEE division: `x / 0` is `±inf` for `x ≠ 0` and NaN for `x = 0`
(rationals have a single zero, modelled as `+0`). -/
def div : EFloat → EFloat → EFloat
  | nan, _ => nan
  | _, nan => nan
  | fin a, fin b =>
      if b = 0 then (if a = 0 then nan else if 0 < a then pinf else ninf)
      else fin (a / b)
  | fin _, pinf => fin 0
  | fin _, ninf => fin 0
  | pinf, fin b => if 0 ≤ b then pinf else ninf
  | ninf, fin b => if 0 ≤ b then ninf else pinf
  | pinf, pinf => nan
  | pinf, ninf => nan
  | ninf, pinf => nan
  | ninf, ninf => nan

/-- Finiteness test (`np.isfinite`). -/
def isFinite : EFloat → Bool
  | fin _ => true
  | _ => false

/-- Minimum of two non-NaN values (NaN propagates, as for `np.min`). -/
def emin : EFloat → EFloat → EFloat
  | nan, _ => nan
  | _, nan => nan
  | ninf, _ => ninf
  | _, ninf => ninf
  | pinf, b => b
  | a, pinf => a
  | fin a, fin b => fin (min a b)

/-- Maximum of two non-NaN values (NaN propagates, as for `np.max`). -/
def emax : EFloat → EFloat → EFloat
  | nan, _ => nan
  | _, nan => nan
  | pinf, _ => pinf
  | _, pinf => pinf
  | ninf, b => b
  | a, ninf => a
  | fin a, fin b => fin (max a b)

end EFloat

/-- Sequential sum of a list of floats (`np.sum`). -/
def esum (l : List EFloat) : EFloat := l.foldl EFloat.add (EFloat.fin 0)

/-- Smallest element of a list, Python's `min` / numpy's reduction;
fails on an empty list. -/
def np_min (l : List Int) : Option Int :=
  match l with
  | [] => none
  | a :: t => some (t.foldl min a)

/-- Largest element of a list of naturals (`np.max`); fails on an empty list. -/
def np_max (l : List Nat) : Option Nat :=
  match l with
  | [] => none
  | a :: t => some (t.foldl max a)

/-- Fixed-shape 2-D numpy array: row/column counts plus a cell function.
Cells outside the bounds are junk and never inspected. -/
structure Grid (α : Type) where
  rows : Nat
  cols : Nat
  data : Nat → Nat → α

namespace Grid

/-- Constant array of a given (rows, cols) shape (`np.full`). -/
def full (shape : Nat × Nat) (v : α) : Grid α :=
  ⟨shape.1, shape.2, fun _ _ => v⟩

/-- Elementwise map (numpy broadcasting of a unary op / `astype`). -/
def emap (f : α → β) (g : Grid α) : Grid β :=
  ⟨g.rows, g.cols, fun i j => f (g.data i j)⟩

/-- Row-major list of the in-bounds cells. -/
def toList (g : Grid α) : List α :=
  (List.range g.rows).flatMap fun i => (List.range g.cols).map fun j => g.data i j

/-- Sum of all cells (`np.sum`). -/
def sum (g : Grid EFloat) : EFloat := esum g.toList

end Grid

/-- Boolean-mask assignment `a[m] = False` on a boolean grid: clears the cells
of `a` where `m` is true.  numpy raises `IndexError` when the boolean index
array's shape differs from `a`'s, modelled as `none`. -/
def maskAssignFalse (a : Grid Bool) (m : Grid Bool) : Option (Grid Bool) :=
  if a.rows = m.rows ∧ a.cols = m.cols then
    some ⟨a.rows, a.cols, fun i j => a.data i j && !(m.data i j)⟩
  else none

/-- Per-representation options of a time-varying variable:
the `{'include': ..., 'max_lag': ...}` sub-dict of `input_data`
(`max_lag` doubles as the lead depth for `linear_trend`). -/
structure FormatSpec where
  incl : Bool
  max_lag : Nat
deriving DecidableEq

/-- One entry of the `input_data` configuration tree: either a dict of
per-format specs (keys `'abs'`, `'anom'`, `'linear_trend'`, in insertion
order) or a metadata variable with an `'include'` flag. -/
inductive VarDict where
  | timevarying (formats : List (String × FormatSpec))
  | metadata (incl : Bool)
deriving DecidableEq

/-- Data-loader configuration (the JSON config consumed by
`IceNet2DataLoader.__init__`), restricted to the fields the claims touch. -/
structure Config where
  input_data : List (String × VarDict)
  n_forecast_days : Nat
  batch_size : Nat
  raw_data_shape : Nat × Nat
  loss_weight_months : Bool

/-- Dictionary lookup `config['input_data'][varname]`; `none` is a `KeyError`. -/
def lookupVar (cfg : Config) (varname : String) : Option VarDict :=
  (cfg.input_data.find? fun p => p.1 = varname).map fun p => p.2

/-- Dictionary lookup `config['input_data'][varname][data_format]`. -/
def lookupFormat (cfg : Config) (varname data_format : String) : Option FormatSpec :=
  (lookupVar cfg varname).bind fun vd =>
    match vd with
    | VarDict.timevarying formats =>
        (formats.find? fun p => p.1 = data_format).map fun p => p.2
    | VarDict.metadata _ => none

/-- Lines 641-647: the `max_lags` list collected from the enabled siconca
representations (`abs` first, then `anom`); a missing key is a `KeyError`. -/
def sic_max_lags (cfg : Config) : Option (List Nat) :=
  match lookupFormat cfg "siconca" "abs", lookupFormat cfg "siconca" "anom" with
  | some a, some n =>
      some ((if a.incl then [a.max_lag] else []) ++ (if n.incl then [n.max_lag] else []))
  | _, _ => none

/-- Lines 635-653, `all_sic_input_dates_from_forecast_start_date`: the SIC
input dates `forecast_start_date - lag` for `lag = 1 .. np.max(max_lags)`,
in that order; `np.max` of an empty list raises. -/
def all_sic_input_dates_from_forecast_start_date (cfg : Config) (forecast_start_date : Date) :
    Option (List Date) :=
  (sic_max_lags cfg).bind fun ls =>
    (np_max ls).map fun max_lag =>
      (List.range max_lag).map fun (i : Nat) => forecast_start_date - ((i : Int) + 1)

/-- Lines 655-674, `check_for_missing_date_dependence`: whether any SIC input
date of the forecast ID equals a missing date of its hemisphere. -/
def check_for_missing_date_dependence (cfg : Config) (missing_dates : Hemi → List Date)
    (hemisphere : Hemi) (forecast_start_date : Date) : Option Bool :=
  (all_sic_input_dates_from_forecast_start_date cfg forecast_start_date).map fun input_dates =>
    input_dates.any fun input_date =>
      (missing_dates hemisphere).any fun missing_date => input_date == missing_date

/-- Lines 697-716, `remove_missing_dates`: keep exactly the forecast IDs whose
missing-date check comes back false; an exception anywhere aborts the pass. -/
def remove_missing_dates (cfg : Config) (missing_dates : Hemi → List Date)
    (all_forecast_IDs : List (Hemi × Date)) : Option (List (Hemi × Date)) :=
  all_forecast_IDs.foldr
    (fun id acc =>
      match acc, check_for_missing_date_dependence cfg missing_dates id.1 id.2 with
      | some rest, some true => some rest
      | some rest, some false => some (id :: rest)
      | _, _ => none)
    (some [])

/-- Line 733: the "no polar hole" grid, `np.full((432, 432), False)` —
hard-coded shape, independent of `raw_data_shape`. -/
def nopolarhole_mask : Grid Bool := Grid.full (432, 432) false

/-- Runtime environment of `IceNet2DataLoader`: configuration plus every
external resource the loader reads (missing-date registry, daily `.npy`
artifacts, mask files, the boundary constants from the `config` module). -/
structure LoaderEnv where
  cfg : Config
  missing_dates : Hemi → List Date
  artifact : Hemi → String → String → Date → Option (Grid EFloat)
  active_grid_cell_mask : Hemi → Int → Grid Bool
  polarhole1_mask : Grid Bool
  polarhole2_mask : Grid Bool
  polarhole1_final_date : Date
  polarhole2_final_date : Date
  meta_land : Hemi → Option (Grid EFloat)
  meta_circday : Hemi → String → Int × Int → Option EFloat

/-- Lines 738-783, `determine_polar_hole_mask`: southern hemisphere always
gets the no-hole grid; northern hemisphere compares the oldest SIC input
date (`min` of the input dates computed from the argument date) against the
two epoch boundaries. -/
def determine_polar_hole_mask (env : LoaderEnv) (hemisphere : Hemi)
    (forecast_start_date : Date) : Option (Grid Bool) :=
  match hemisphere with
  | Hemi.sh => some nopolarhole_mask
  | Hemi.nh =>
      (all_sic_input_dates_from_forecast_start_date env.cfg forecast_start_date).bind
        fun input_dates =>
          (np_min input_dates).map fun oldest_input_date =>
            if oldest_input_date ≤ env.polarhole1_final_date then env.polarhole1_mask
            else if oldest_input_date ≤ env.polarhole2_final_date then env.polarhole2_mask
            else nopolarhole_mask

/-- Lines 785-810, `determine_active_grid_cell_mask`: load the land/ocean
mask for the month of `forecast_date`, then clear the polar-hole cells
(`output_active_grid_cell_mask[polarhole_mask] = False`). -/
def determine_active_grid_cell_mask (env : LoaderEnv) (hemisphere : Hemi)
    (forecast_date : Date) : Option (Grid Bool) :=
  let output_active_grid_cell_mask := env.active_grid_cell_mask hemisphere (monthOf forecast_date)
  (determine_polar_hole_mask env hemisphere forecast_date).bind fun polarhole_mask =>
    maskAssignFalse output_active_grid_cell_mask polarhole_mask

/-- Lines 867-884 of `data_generation` for one sample and one lead:
target channel 0 is the siconca `abs` artifact of the target date if the
file exists, else a grid of NaN. -/
def target_sic (env : LoaderEnv) (hemisphere : Hemi) (forecast_start_date : Date)
    (forecast_leadtime_idx : Nat) : Grid EFloat :=
  let forecast_target_date := forecast_start_date + (forecast_leadtime_idx : Int)
  match env.artifact hemisphere "siconca" "abs" forecast_target_date with
  | none => Grid.full env.cfg.raw_data_shape EFloat.nan
  | some g => g

/-- Lines 903-922 of `data_generation` for one sample and one lead:
target channel 1 (the loss weight).  A missing target date gives an all-zero
grid; otherwise the composed active-grid-cell mask is cast to float and, when
`loss_weight_months` is set, rescaled by `33928. / np.sum(sample_weight)`. -/
def sample_weight (env : LoaderEnv) (hemisphere : Hemi) (forecast_start_date : Date)
    (forecast_leadtime_idx : Nat) : Option (Grid EFloat) :=
  let forecast_target_date := forecast_start_date + (forecast_leadtime_idx : Int)
  if (env.missing_dates hemisphere).any (fun missing_date => forecast_target_date == missing_date)
  then some (Grid.full env.cfg.raw_data_shape (EFloat.fin 0))
  else
    (determine_active_grid_cell_mask env hemisphere forecast_target_date).map fun mask =>
      let sw := mask.emap fun b => EFloat.fin (if b then 1 else 0)
      if env.cfg.loss_weight_months then
        sw.emap fun x => x.mul ((EFloat.fin 33928).div sw.sum)
      else sw

/-- Lines 951-957 of `data_generation`: the dates loaded for one time-varying
representation, anchored at `present_date = forecast_start_date - 1`:
`present_date - lag` for `lag = 1..max_lag` (non-trend) or
`present_date + lead` for `lead = 1..n_forecast_days` (`linear_trend`). -/
def format_input_dates (cfg : Config) (present_date : Date) (data_format : String)
    (spec : FormatSpec) : List Date :=
  if data_format ≠ "linear_trend" then
    (List.range spec.max_lag).map fun (i : Nat) => present_date - ((i : Int) + 1)
  else
    (List.range cfg.n_forecast_days).map fun (i : Nat) => present_date + ((i : Int) + 1)

/-- Lines 933-989 of `data_generation` for one sample: the ordered list of
input channels of `X`, one grid per channel.  Time-varying representations
contribute their `np.load`ed artifacts in `format_input_dates` order
(a missing file raises); `land` contributes one grid and `circday` two
spatially-uniform grids keyed by the start date's month and day. -/
def X_sample_channels (env : LoaderEnv) (hemisphere : Hemi)
    (forecast_start_date : Date) : Option (List (Grid EFloat)) :=
  let present_date := forecast_start_date - 1
  (env.cfg.input_data.mapM fun (vd : String × VarDict) =>
    match vd.2 with
    | VarDict.timevarying formats =>
        ((formats.filter fun (p : String × FormatSpec) => p.2.incl).mapM
          fun (p : String × FormatSpec) =>
          (format_input_dates env.cfg present_date p.1 p.2).mapM
            (env.artifact hemisphere vd.1 p.1)).map List.flatten
    | VarDict.metadata incl =>
        if incl then
          if vd.1 = "land" then
            (env.meta_land hemisphere).map fun g => [g]
          else if vd.1 = "circday" then
            match
              env.meta_circday hemisphere "cos" (monthOf forecast_start_date, dayOf forecast_start_date),
              env.meta_circday hemisphere "sin" (monthOf forecast_start_date, dayOf forecast_start_date)
            with
            | some c, some s =>
                some [Grid.full env.cfg.raw_data_shape c, Grid.full env.cfg.raw_data_shape s]
            | _, _ => none
          else none
        else some []).map List.flatten

/-- Lines 992-1004, `__getitem__`: the forecast IDs of batch `batch_idx` —
positions `np.arange(batch_start, batch_end)` of the current sample order,
with `batch_end = min((batch_idx+1) * batch_size, N)`.  All generated indices
are in range, so the `getD` default is never read. -/
def getitem_IDs [Inhabited α] (all_forecast_IDs : List α) (batch_size : Nat)
    (batch_idx : Nat) : List α :=
  let batch_start := batch_idx * batch_size
  let batch_end := min ((batch_idx + 1) * batch_size) all_forecast_IDs.length
  (List.range' batch_start (batch_end - batch_start)).map fun k =>
    all_forecast_IDs.getD k default

/-- Lines 1006-1008, `__len__`: `int(np.ceil(N / batch_size))` with exact
rational division in place of float division. -/
def dataloader_len (N batch_size : Nat) : Nat :=
  Nat.ceil ((N : ℚ) / (batch_size : ℚ))

/-- Lines 153-159 restricted to `np.nanmean`-free use is not needed;
`np.nanmin`: minimum ignoring NaNs, NaN when no non-NaN value exists. -/
def nanmin (xs : List EFloat) : EFloat :=
  match xs.filter fun x => !(x == EFloat.nan) with
  | [] => EFloat.nan
  | a :: t => t.foldl EFloat.emin a

/-- Largest non-NaN value (`np.nanmax`), NaN when no non-NaN value exists. -/
def nanmax (xs : List EFloat) : EFloat :=
  match xs.filter fun x => !(x == EFloat.nan) with
  | [] => EFloat.nan
  | a :: t => t.foldl EFloat.emax a

/-- Lines 204-215 of `normalise_array_using_all_training_data`, the
`minmax=True` branch: statistics from the training window unless supplied,
output `(da - min) / (max - min)` with the statistics actually used. -/
def normalise_minmax (da train : List EFloat) (mn0 mx0 : Option EFloat) :
    List EFloat × EFloat × EFloat :=
  let mn := mn0.getD (nanmin train)
  let mx := mx0.getD (nanmax train)
  (da.map fun x => (x.sub mn).div (mx.sub mn), mn, mx)

/-- Lines 186-202, the mean/std branch, with the statistics supplied (the
source's override path; `np.nanstd`'s square root is not embedded, and no
claim depends on the computed value of the standard deviation). -/
def normalise_standard (da : List EFloat) (mean std : EFloat) : List EFloat :=
  da.map fun x => (x.sub mean).div std

/-- Lines 342-354 of `save_variable`: siconca bypasses normalisation; other
variables are normalised (minmax or mean/std); then
`da.data[np.isnan(da.data)] = 0.` replaces exactly the NaN cells with zero
(`np.isnan` is false on ±inf). -/
def save_variable (varname : String) (minmax : Bool) (da train : List EFloat)
    (mean std : EFloat) : List EFloat :=
  let nda :=
    if varname = "siconca" then da
    else if minmax then (normalise_minmax da train none none).1
    else normalise_standard da mean std
  nda.map fun x => if x = EFloat.nan then EFloat.fin 0 else x

/-- Modelled from the spec: `misc.filled_daily_dates` (the `misc` module is
not in the repository snapshot).  Spec 4.1: inclusive daily sequence from
`start`, excluding `end` unless `include_end`; `end < start` gives the empty
sequence. -/
def filled_daily_dates (start_date end_date : Date) (include_end : Bool) : List Date :=
  let n := end_date - start_date + (if include_end then 1 else 0)
  (List.range n.toNat).map fun (i : Nat) => start_date + (i : Int)

/-! ## Helper lemmas -/

lemma foldl_add_fin (f : α → ℚ) (l : List α) (q : ℚ) :
    (l.map fun a => EFloat.fin (f a)).foldl EFloat.add (EFloat.fin q) =
      EFloat.fin (q + (l.map f).sum) := by
  induction l generalizing q with
  | nil => simp
  | cons a t ih =>
      simp only [List.map_cons, List.foldl_cons, List.sum_cons]
      rw [show EFloat.add (EFloat.fin q) (EFloat.fin (f a)) = EFloat.fin (q + f a) from rfl, ih]
      ring_nf

lemma esum_fin_map (f : α → ℚ) (l : List α) :
    esum (l.map fun a => EFloat.fin (f a)) = EFloat.fin ((l.map f).sum) := by
  simpa using foldl_add_fin f l 0

lemma sum_boolind (l : List Bool) :
    (l.map fun b => (if b then (1 : ℚ) else 0)).sum = (l.count true : ℚ) := by
  induction l with
  | nil => simp
  | cons b t ih =>
      simp only [List.map_cons, List.sum_cons, List.count_cons, ih]
      cases b <;> simp <;> push_cast <;> ring

lemma sum_boolind_mul (l : List Bool) (k : ℚ) :
    (l.map fun b => (if b then (1 : ℚ) else 0) * k).sum = (l.count true : ℚ) * k := by
  rw [List.sum_map_mul_right, sum_boolind]

lemma Grid.toList_emap (f : α → β) (g : Grid α) : (g.emap f).toList = g.toList.map f := by
  simp only [Grid.emap, Grid.toList, List.map_flatMap, List.map_map]
  rfl

lemma Grid.data_mem_toList (g : Grid α) (i j : Nat) (hi : i < g.rows) (hj : j < g.cols) :
    g.data i j ∈ g.toList := by
  simp only [Grid.toList, List.mem_flatMap, List.mem_map, List.mem_range]
  exact ⟨i, hi, j, hj, rfl⟩

lemma any_beq_false_of_not_mem {t : Int} {l : List Int} (h : t ∉ l) :
    (l.any fun m => t == m) = false := by
  rw [List.any_eq_false]
  intro m hm
  simp only [beq_iff_eq]
  exact fun he => h (he ▸ hm)

lemma any_beq_true_of_mem {t : Int} {l : List Int} (h : t ∈ l) :
    (l.any fun m => t == m) = true :=
  List.any_eq_true.mpr ⟨t, h, by simp⟩

/-! ## C1: lag anchoring of time-varying input channels -/

/-- Concrete configuration for exercising the input-channel date layout:
siconca `abs` enabled with lag depth 2, `anom` disabled. -/
def cfgC1 : Config :=
  { input_data := [("siconca",
      VarDict.timevarying [("abs", ⟨true, 2⟩), ("anom", ⟨false, 0⟩)])],
    n_forecast_days := 1,
    batch_size := 1,
    raw_data_shape := (1, 1),
    loss_weight_months := false }

/-- Concrete loader environment whose artifact store tags each daily grid
with its own date, so the date loaded into each channel is observable. -/
def envC1 : LoaderEnv :=
  { cfg := cfgC1,
    missing_dates := fun _ => [],
    artifact := fun _ _ _ d => some (Grid.full (1, 1) (EFloat.fin (d : ℚ))),
    active_grid_cell_mask := fun _ _ => Grid.full (1, 1) true,
    polarhole1_mask := Grid.full (1, 1) false,
    polarhole2_mask := Grid.full (1, 1) false,
    polarhole1_final_date := 0,
    polarhole2_final_date := 0,
    meta_land := fun _ => none,
    meta_circday := fun _ _ _ => none }

/-- C1: the claim says the channel for lag `k` of a time-varying non-trend
representation holds the artifact for `forecast_start_date - k`, so with
`max_lag = 2` and start date 0 the channels should hold the artifacts for
days -1 and -2.  The code anchors at `present_date = start - 1` and loads
`present_date - lag`, so the channels actually hold days -2 and -3, while
the loader's own `all_sic_input_dates_from_forecast_start_date` — used for
missing-date exclusion and polar-hole selection — says the inputs are
days -1 and -2; in particular a sample whose loaded input day -3 is in the
missing-date registry still passes the exclusion check. -/
theorem C1_lag_off_by_one :
    ((X_sample_channels envC1 Hemi.nh 0).map fun l => l.map fun g => g.data 0 0) =
      some [EFloat.fin (-2), EFloat.fin (-3)] ∧
    all_sic_input_dates_from_forecast_start_date cfgC1 0 = some [-1, -2] ∧
    check_for_missing_date_dependence cfgC1 (fun _ => [-3]) Hemi.nh 0 = some false := by
  refine ⟨by decide, by decide, by decide⟩

/-! ## C3: sea-ice target gaps are NaN-filled / zero-weighted, never fatal -/

/-- C3: for every environment, sample and lead, (a) if the target date's
siconca artifact is absent, target channel 0 is a full-NaN grid, and (b) if
the target date is in the hemisphere's missing-date set, target channel 1 is
the all-zero grid, irrespective of the composed validity mask; in both cases
assembly returns a value rather than failing. -/
theorem C3_target_gap_handling (env : LoaderEnv) (hemisphere : Hemi)
    (forecast_start_date : Date) (forecast_leadtime_idx : Nat) :
    (env.artifact hemisphere "siconca" "abs"
        (forecast_start_date + (forecast_leadtime_idx : Int)) = none →
      target_sic env hemisphere forecast_start_date forecast_leadtime_idx =
        Grid.full env.cfg.raw_data_shape EFloat.nan) ∧
    ((forecast_start_date + (forecast_leadtime_idx : Int)) ∈ env.missing_dates hemisphere →
      sample_weight env hemisphere forecast_start_date forecast_leadtime_idx =
        some (Grid.full env.cfg.raw_data_shape (EFloat.fin 0))) := by
  constructor
  · intro h
    simp only [target_sic]
    rw [h]
  · intro h
    simp only [sample_weight]
    rw [any_beq_true_of_mem h]
    simp

/-- Concrete environment for the C3 witness: the target artifact is absent
and the target date is registered as missing. -/
def envC3 : LoaderEnv :=
  { cfg := cfgC1,
    missing_dates := fun _ => [0],
    artifact := fun _ _ _ _ => none,
    active_grid_cell_mask := fun _ _ => Grid.full (1, 1) true,
    polarhole1_mask := Grid.full (1, 1) false,
    polarhole2_mask := Grid.full (1, 1) false,
    polarhole1_final_date := 0,
    polarhole2_final_date := 0,
    meta_land := fun _ => none,
    meta_circday := fun _ _ _ => none }

/-- Witness for C3 at a concrete sample with an absent artifact and a
missing target date. -/
theorem C3_target_gap_handling_witness :
    target_sic envC3 Hemi.nh 0 0 = Grid.full (1, 1) EFloat.nan ∧
    sample_weight envC3 Hemi.nh 0 0 = some (Grid.full (1, 1) (EFloat.fin 0)) :=
  ⟨(C3_target_gap_handling envC3 Hemi.nh 0 0).1 rfl,
   (C3_target_gap_handling envC3 Hemi.nh 0 0).2 (by decide)⟩

/-! ## C5: the polar-hole lookup's three-way epoch comparison -/

/-- C5: with the epoch boundaries in ascending order, the southern hemisphere
always gets the all-false grid; in the northern hemisphere the lookup keys on
the oldest SIC input date `d` computed from the argument date and returns the
epoch-1 mask for `d ≤ E1`, the epoch-2 mask for `E1 < d ≤ E2`, and the
all-false grid for `d > E2`. -/
theorem C5_polar_hole_epochs (env : LoaderEnv) (forecast_start_date : Date)
    (input_dates : List Date) (d : Date)
    (hE : env.polarhole1_final_date < env.polarhole2_final_date)
    (hds : all_sic_input_dates_from_forecast_start_date env.cfg forecast_start_date =
      some input_dates)
    (hmin : np_min input_dates = some d) :
    determine_polar_hole_mask env Hemi.sh forecast_start_date = some nopolarhole_mask ∧
    (d ≤ env.polarhole1_final_date →
      determine_polar_hole_mask env Hemi.nh forecast_start_date = some env.polarhole1_mask) ∧
    (env.polarhole1_final_date < d → d ≤ env.polarhole2_final_date →
      determine_polar_hole_mask env Hemi.nh forecast_start_date = some env.polarhole2_mask) ∧
    (env.polarhole2_final_date < d →
      determine_polar_hole_mask env Hemi.nh forecast_start_date = some nopolarhole_mask) := by
  refine ⟨rfl, ?_, ?_, ?_⟩
  · intro h1
    simp only [determine_polar_hole_mask, hds, Option.some_bind, hmin, Option.map_some']
    rw [if_pos h1]
  · intro h1 h2
    simp only [determine_polar_hole_mask, hds, Option.some_bind, hmin, Option.map_some']
    rw [if_neg (not_le.mpr h1), if_pos h2]
  · intro h2
    have h1 : env.polarhole1_final_date < d := lt_trans hE h2
    simp only [determine_polar_hole_mask, hds, Option.some_bind, hmin, Option.map_some']
    rw [if_neg (not_le.mpr h1), if_neg (not_le.mpr h2)]

/-- Concrete environment for the C5 witness: boundaries 10 < 20, siconca
`abs` lag depth 1 enabled. -/
def envC5 : LoaderEnv :=
  { cfg :=
    { input_data := [("siconca",
        VarDict.timevarying [("abs", ⟨true, 1⟩), ("anom", ⟨false, 0⟩)])],
      n_forecast_days := 1,
      batch_size := 1,
      raw_data_shape := (1, 1),
      loss_weight_months := false },
    missing_dates := fun _ => [],
    artifact := fun _ _ _ _ => none,
    active_grid_cell_mask := fun _ _ => Grid.full (1, 1) true,
    polarhole1_mask := Grid.full (2, 2) true,
    polarhole2_mask := Grid.full (3, 3) true,
    polarhole1_final_date := 10,
    polarhole2_final_date := 20,
    meta_land := fun _ => none,
    meta_circday := fun _ _ _ => none }

/-- Witness for C5 at a concrete environment and forecast start date 5
(oldest SIC input date 4). -/
theorem C5_polar_hole_epochs_witness :
    envC5.polarhole1_final_date < envC5.polarhole2_final_date ∧
    all_sic_input_dates_from_forecast_start_date envC5.cfg 5 = some [4] ∧
    np_min [4] = some 4 ∧
    (determine_polar_hole_mask envC5 Hemi.sh 5 = some nopolarhole_mask ∧
      (4 ≤ envC5.polarhole1_final_date →
        determine_polar_hole_mask envC5 Hemi.nh 5 = some envC5.polarhole1_mask) ∧
      (envC5.polarhole1_final_date < 4 → 4 ≤ envC5.polarhole2_final_date →
        determine_polar_hole_mask envC5 Hemi.nh 5 = some envC5.polarhole2_mask) ∧
      (envC5.polarhole2_final_date < 4 →
        determine_polar_hole_mask envC5 Hemi.nh 5 = some nopolarhole_mask)) :=
  ⟨by decide, by decide, by decide,
   C5_polar_hole_epochs envC5 5 [4] 4 (by decide) (by decide) (by decide)⟩

/-! ## C6: NaN (but not inf) replacement before persistence -/

/-- C6 counterexample: preprocessing a non-siconca variable in minmax mode
with a constant training window makes `max - min = 0`, so normalisation
produces `+inf`, and the persisted output still contains `+inf`: the claim
that every non-finite value is replaced with zero before persistence is
false — only NaN is replaced (`np.isnan` is false on infinities). -/
theorem C6_counterexample :
    save_variable "tas" true [EFloat.fin 1] [EFloat.fin 0] (EFloat.fin 0) (EFloat.fin 1) =
      [EFloat.pinf] ∧ EFloat.pinf ≠ EFloat.fin 0 := by
  constructor
  · have hmn : nanmin [EFloat.fin 0] = EFloat.fin 0 := rfl
    have hmx : nanmax [EFloat.fin 0] = EFloat.fin 0 := rfl
    have hsub0 : (EFloat.fin 0).sub (EFloat.fin 0) = EFloat.fin 0 := by
      simp [EFloat.sub, EFloat.neg, EFloat.add]
    have hsub1 : (EFloat.fin 1).sub (EFloat.fin 0) = EFloat.fin 1 := by
      simp [EFloat.sub, EFloat.neg, EFloat.add]
    have hdiv : (EFloat.fin 1).div (EFloat.fin 0) = EFloat.pinf := by
      simp [EFloat.div]
    simp [save_variable, normalise_minmax, hmn, hmx, hsub0, hsub1, hdiv]
  · decide

/-- C6 amended: before persistence, every NaN in the normalised output is
replaced with zero (so the persisted array contains no NaN); infinities are
not replaced. -/
theorem C6_amended_no_nan_persisted (varname : String) (minmax : Bool)
    (da train : List EFloat) (mean std : EFloat) :
    (save_variable varname minmax da train mean std).all
      (fun y => !(y == EFloat.nan)) = true := by
  rw [List.all_eq_true]
  unfold save_variable
  intro y hy
  rcases List.mem_map.mp hy with ⟨x, _, hx⟩
  by_cases hxn : x = EFloat.nan
  · rw [if_pos hxn] at hx
    rw [← hx]
    decide
  · rw [if_neg hxn] at hx
    rw [← hx]
    simpa using hxn

/-! ## C10: hard-coded (432, 432) no-hole grid vs configured raw shape -/

/-- C10: whenever the configured raw data shape differs from (432, 432) and
the monthly land/ocean mask has the configured raw shape (the mask-source
contract), composing the validity mask in any case that selects the
hard-coded no-polar-hole grid — the southern hemisphere, or a northern
hemisphere date whose oldest SIC input lies past the last epoch boundary —
fails (numpy `IndexError`) instead of returning a composed mask. -/
theorem C10_nopolarhole_shape_failure (env : LoaderEnv) (hemisphere : Hemi)
    (forecast_date : Date) (input_dates : List Date) (d : Date)
    (hshape : env.cfg.raw_data_shape ≠ (432, 432))
    (hrows : (env.active_grid_cell_mask hemisphere (monthOf forecast_date)).rows =
      env.cfg.raw_data_shape.1)
    (hcols : (env.active_grid_cell_mask hemisphere (monthOf forecast_date)).cols =
      env.cfg.raw_data_shape.2)
    (hcase : hemisphere = Hemi.sh ∨
      (hemisphere = Hemi.nh ∧
        all_sic_input_dates_from_forecast_start_date env.cfg forecast_date = some input_dates ∧
        np_min input_dates = some d ∧
        env.polarhole1_final_date ≤ env.polarhole2_final_date ∧
        env.polarhole2_final_date < d)) :
    determine_active_grid_cell_mask env hemisphere forecast_date = none := by
  have hph : determine_polar_hole_mask env hemisphere forecast_date = some nopolarhole_mask := by
    rcases hcase with h | ⟨h, hds, hmin, hEE, hd⟩
    · subst h; rfl
    · subst h
      simp only [determine_polar_hole_mask, hds, Option.some_bind, hmin, Option.map_some']
      rw [if_neg (not_le.mpr (lt_of_le_of_lt hEE hd)), if_neg (not_le.mpr hd)]
  simp only [determine_active_grid_cell_mask, hph, Option.some_bind]
  unfold maskAssignFalse
  rw [if_neg]
  intro hc
  apply hshape
  rw [hrows] at hc
  rw [hcols] at hc
  exact Prod.ext_iff.mpr ⟨hc.1, hc.2⟩

/-- Concrete environment for the C10 witness: raw shape (1, 1). -/
def envC10 : LoaderEnv :=
  { cfg := cfgC1,
    missing_dates := fun _ => [],
    artifact := fun _ _ _ _ => none,
    active_grid_cell_mask := fun _ _ => Grid.full (1, 1) true,
    polarhole1_mask := Grid.full (1, 1) false,
    polarhole2_mask := Grid.full (1, 1) false,
    polarhole1_final_date := 0,
    polarhole2_final_date := 0,
    meta_land := fun _ => none,
    meta_circday := fun _ _ _ => none }

/-- Witness for C10: with raw shape (1, 1), the southern-hemisphere
composition fails. -/
theorem C10_nopolarhole_shape_failure_witness :
    envC10.cfg.raw_data_shape ≠ (432, 432) ∧
    determine_active_grid_cell_mask envC10 Hemi.sh 0 = none :=
  ⟨by decide,
   C10_nopolarhole_shape_failure envC10 Hemi.sh 0 [] 0 (by decide) rfl rfl (Or.inl rfl)⟩

/-! ## C2: which date selects the polar-hole epoch for the weight mask -/

lemma np_min_append_single (l : List Int) (a : Int) (h : l ≠ []) :
    np_min (l ++ [a]) = (np_min l).map fun m => min m a := by
  cases l with
  | nil => exact absurd rfl h
  | cons x t => simp [np_min, List.foldl_append]

lemma min_lag_list (L : Nat) (t : Date) :
    np_min ((List.range (L + 1)).map fun (i : Nat) => t - ((i : Int) + 1)) =
      some (t - ((L : Int) + 1)) := by
  induction L with
  | zero =>
      rw [show List.range 1 = [0] from rfl]
      simp [np_min]
  | succ L ih =>
      rw [List.range_succ, List.map_append]
      simp only [List.map_cons, List.map_nil]
      rw [np_min_append_single _ _ (by simp)]
      rw [ih]
      simp only [Option.map_some']
      congr 1
      rw [min_eq_right (by push_cast; omega)]

/-- C2 (amended): in the northern hemisphere, the polar-hole mask removed
from a lead's weight mask is selected by the epoch of the lead's *target*
date minus the maximum enabled SIC lag `L` — the oldest input date computed
as if the target date were a forecast start date — not by the epoch of the
sample's own oldest input date `forecast_start_date - L`. -/
theorem C2_epoch_selected_by_target_minus_maxlag (env : LoaderEnv)
    (forecast_start_date : Date) (forecast_leadtime_idx : Nat) (ls : List Nat) (L : Nat)
    (hok : sic_max_lags env.cfg = some ls) (hmax : np_max ls = some L) (hL : 1 ≤ L) :
    determine_polar_hole_mask env Hemi.nh
        (forecast_start_date + (forecast_leadtime_idx : Int)) =
      some (if forecast_start_date + (forecast_leadtime_idx : Int) - (L : Int) ≤
              env.polarhole1_final_date then env.polarhole1_mask
            else if forecast_start_date + (forecast_leadtime_idx : Int) - (L : Int) ≤
              env.polarhole2_final_date then env.polarhole2_mask
            else nopolarhole_mask) ∧
    determine_active_grid_cell_mask env Hemi.nh
        (forecast_start_date + (forecast_leadtime_idx : Int)) =
      maskAssignFalse
        (env.active_grid_cell_mask Hemi.nh
          (monthOf (forecast_start_date + (forecast_leadtime_idx : Int))))
        (if forecast_start_date + (forecast_leadtime_idx : Int) - (L : Int) ≤
            env.polarhole1_final_date then env.polarhole1_mask
          else if forecast_start_date + (forecast_leadtime_idx : Int) - (L : Int) ≤
            env.polarhole2_final_date then env.polarhole2_mask
          else nopolarhole_mask) := by
  obtain ⟨L', rfl⟩ : ∃ L0, L = L0 + 1 := ⟨L - 1, by omega⟩
  have hds : all_sic_input_dates_from_forecast_start_date env.cfg
      (forecast_start_date + (forecast_leadtime_idx : Int)) =
      some ((List.range (L' + 1)).map fun (i : Nat) =>
        forecast_start_date + (forecast_leadtime_idx : Int) - ((i : Int) + 1)) := by
    simp [all_sic_input_dates_from_forecast_start_date, hok, hmax]
  have hmin := min_lag_list L' (forecast_start_date + (forecast_leadtime_idx : Int))
  have hcast : forecast_start_date + (forecast_leadtime_idx : Int) - ((L' : Int) + 1) =
      forecast_start_date + (forecast_leadtime_idx : Int) - ((L' + 1 : Nat) : Int) := by
    push_cast
    ring
  rw [hcast] at hmin
  have h1 : determine_polar_hole_mask env Hemi.nh
      (forecast_start_date + (forecast_leadtime_idx : Int)) =
      some (if forecast_start_date + (forecast_leadtime_idx : Int) - ((L' + 1 : Nat) : Int) ≤
              env.polarhole1_final_date then env.polarhole1_mask
            else if forecast_start_date + (forecast_leadtime_idx : Int) - ((L' + 1 : Nat) : Int) ≤
              env.polarhole2_final_date then env.polarhole2_mask
            else nopolarhole_mask) := by
    simp only [determine_polar_hole_mask, hds, Option.some_bind, hmin, Option.map_some']
  refine ⟨h1, ?_⟩
  simp only [determine_active_grid_cell_mask, h1, Option.some_bind]

/-- Concrete environment for C2: epoch-1 boundary 5, epoch-2 boundary 10,
epoch-1 hole covers the whole (1, 1) grid, epoch-2 hole is empty, siconca
`abs` lag depth 1, horizon 3, reweighting off. -/
def envC2 : LoaderEnv :=
  { cfg :=
    { input_data := [("siconca",
        VarDict.timevarying [("abs", ⟨true, 1⟩), ("anom", ⟨false, 0⟩)])],
      n_forecast_days := 3,
      batch_size := 1,
      raw_data_shape := (1, 1),
      loss_weight_months := false },
    missing_dates := fun _ => [],
    artifact := fun _ _ _ _ => none,
    active_grid_cell_mask := fun _ _ => Grid.full (1, 1) true,
    polarhole1_mask := Grid.full (1, 1) true,
    polarhole2_mask := Grid.full (1, 1) false,
    polarhole1_final_date := 5,
    polarhole2_final_date := 10,
    meta_land := fun _ => none,
    meta_circday := fun _ _ _ => none }

/-- C2 counterexample: sample with forecast start date 6 and max enabled SIC
lag 1, so the sample's oldest SIC input date is 5 ≤ E1 = 5, whose epoch
selects the all-true epoch-1 hole; composing the weight mask with that hole
would zero the only cell.  But for lead 2 (target date 8) the code removes
the hole selected by date 8 - 1 = 7 > E1, the empty epoch-2 hole, so the
assembled weight at that cell is 1, not 0: the claim is false as stated. -/
theorem C2_counterexample :
    all_sic_input_dates_from_forecast_start_date envC2.cfg 6 = some [5] ∧
    np_min [5] = some 5 ∧
    (5 : Int) ≤ envC2.polarhole1_final_date ∧
    ((sample_weight envC2 Hemi.nh 6 2).map fun g => g.data 0 0) = some (EFloat.fin 1) ∧
    ((maskAssignFalse (envC2.active_grid_cell_mask Hemi.nh (monthOf 8))
        envC2.polarhole1_mask).map fun g => g.data 0 0) = some false ∧
    EFloat.fin 1 ≠ EFloat.fin 0 := by
  refine ⟨by decide, by decide, by decide, by decide, by decide, by decide⟩

/-- Witness for the amended C2 at the concrete environment, lead 2. -/
theorem C2_epoch_selected_witness :
    sic_max_lags envC2.cfg = some [1] ∧ np_max [1] = some 1 ∧
    (determine_polar_hole_mask envC2 Hemi.nh (6 + ((2 : Nat) : Int)) =
      some (if 6 + ((2 : Nat) : Int) - ((1 : Nat) : Int) ≤ envC2.polarhole1_final_date
            then envC2.polarhole1_mask
            else if 6 + ((2 : Nat) : Int) - ((1 : Nat) : Int) ≤ envC2.polarhole2_final_date
            then envC2.polarhole2_mask
            else nopolarhole_mask) ∧
     determine_active_grid_cell_mask envC2 Hemi.nh (6 + ((2 : Nat) : Int)) =
      maskAssignFalse (envC2.active_grid_cell_mask Hemi.nh (monthOf (6 + ((2 : Nat) : Int))))
        (if 6 + ((2 : Nat) : Int) - ((1 : Nat) : Int) ≤ envC2.polarhole1_final_date
          then envC2.polarhole1_mask
          else if 6 + ((2 : Nat) : Int) - ((1 : Nat) : Int) ≤ envC2.polarhole2_final_date
          then envC2.polarhole2_mask
          else nopolarhole_mask)) :=
  ⟨by decide, by decide,
   C2_epoch_selected_by_target_minus_maxlag envC2 6 2 [1] 1 (by decide) (by decide)
     (by decide)⟩

/-! ## C4: the missing-date exclusion pass on the sample index -/

lemma remove_missing_dates_filter (cfg : Config) (missing : Hemi → List Date)
    (ids : List (Hemi × Date)) (f : Hemi × Date → Bool)
    (hf : ∀ id ∈ ids, check_for_missing_date_dependence cfg missing id.1 id.2 = some (f id)) :
    remove_missing_dates cfg missing ids = some (ids.filter fun id => !(f id)) := by
  induction ids with
  | nil => rfl
  | cons id rest ih =>
      have hrest := ih fun x hx => hf x (List.mem_cons_of_mem _ hx)
      have hid := hf id (List.mem_cons_self _ _)
      unfold remove_missing_dates at hrest ⊢
      rw [List.foldr_cons, hrest, hid, List.filter_cons]
      cases hfi : f id <;> simp [hfi]

/-- C4: with at least one siconca representation enabled, the exclusion pass
always succeeds, and a candidate (hemisphere, forecast start date) ends up
dropped from the index exactly when some date at lag 1..max_lag before the
forecast start date (max_lag being the larger of the enabled `abs`/`anom`
lag depths) is in that hemisphere's missing-date set.  The condition never
mentions the forecast-horizon (target) dates, so a missing target date alone
never causes exclusion. -/
theorem C4_exclusion_iff_missing_lag (cfg : Config) (missing : Hemi → List Date)
    (ids : List (Hemi × Date)) (a n : FormatSpec)
    (ha : lookupFormat cfg "siconca" "abs" = some a)
    (hn : lookupFormat cfg "siconca" "anom" = some n)
    (hen : a.incl = true ∨ n.incl = true) :
    ∃ kept, remove_missing_dates cfg missing ids = some kept ∧
      ∀ hemisphere fsd, ((hemisphere, fsd) ∈ kept ↔
        ((hemisphere, fsd) ∈ ids ∧
          ¬ ∃ k : Nat, 1 ≤ k ∧
            k ≤ max (if a.incl then a.max_lag else 0) (if n.incl then n.max_lag else 0) ∧
            fsd - (k : Int) ∈ missing hemisphere)) := by
  have hls : sic_max_lags cfg =
      some ((if a.incl then [a.max_lag] else []) ++ (if n.incl then [n.max_lag] else [])) := by
    simp [sic_max_lags, ha, hn]
  have hmax : np_max ((if a.incl then [a.max_lag] else []) ++
      (if n.incl then [n.max_lag] else [])) =
      some (max (if a.incl then a.max_lag else 0) (if n.incl then n.max_lag else 0)) := by
    cases ha' : a.incl with
    | true =>
        cases hn' : n.incl with
        | true => simp [np_max]
        | false => simp [np_max]
    | false =>
        cases hn' : n.incl with
        | true => simp [np_max]
        | false =>
            rcases hen with h | h
            · rw [ha'] at h; cases h
            · rw [hn'] at h; cases h
  obtain ⟨L, hLdef⟩ : ∃ L, max (if a.incl then a.max_lag else 0)
      (if n.incl then n.max_lag else 0) = L := ⟨_, rfl⟩
  rw [hLdef] at hmax ⊢
  have hcheck : ∀ id : Hemi × Date, ∀ _ : id ∈ ids,
      check_for_missing_date_dependence cfg missing id.1 id.2 =
        some (((List.range L).map fun (i : Nat) => id.2 - ((i : Int) + 1)).any
          fun d => (missing id.1).any fun m => d == m) := by
    intro id _
    simp [check_for_missing_date_dependence, all_sic_input_dates_from_forecast_start_date,
      hls, hmax]
  refine ⟨_, remove_missing_dates_filter cfg missing ids _ hcheck, ?_⟩
  intro hemisphere fsd
  rw [List.mem_filter]
  constructor
  · rintro ⟨hin, hflt⟩
    refine ⟨hin, ?_⟩
    rintro ⟨k, hk1, hkL, hkm⟩
    rw [Bool.not_eq_true'] at hflt
    rw [List.any_eq_false] at hflt
    have hmem : fsd - (k : Int) ∈
        (List.range L).map fun (i : Nat) => fsd - ((i : Int) + 1) := by
      simp only [List.mem_map, List.mem_range]
      refine ⟨k - 1, by omega, ?_⟩
      show fsd - (((k - 1 : Nat) : Int) + 1) = fsd - (k : Int)
      push_cast [hk1]
      ring
    have hne := hflt (fsd - (k : Int)) hmem
    exact hne (any_beq_true_of_mem hkm)
  · rintro ⟨hin, hnot⟩
    refine ⟨hin, ?_⟩
    rw [Bool.not_eq_true']
    rw [List.any_eq_false]
    intro d hd
    simp only [List.mem_map, List.mem_range] at hd
    obtain ⟨i, hiL, rfl⟩ := hd
    rw [Bool.not_eq_true]
    apply any_beq_false_of_not_mem
    intro hmem
    refine hnot ⟨i + 1, by omega, by omega, ?_⟩
    push_cast
    simpa using hmem

/-- Concrete configuration for the C4 witness: `abs` enabled with lag depth 3,
`anom` disabled (with an irrelevant larger depth). -/
def cfgC4 : Config :=
  { input_data := [("siconca",
      VarDict.timevarying [("abs", ⟨true, 3⟩), ("anom", ⟨false, 7⟩)])],
    n_forecast_days := 2,
    batch_size := 1,
    raw_data_shape := (1, 1),
    loss_weight_months := false }

/-- Witness for C4: day -2 is missing, so the candidate with start date 0
(lag window -1, -2, -3) is dropped and the candidate with start date 10 is
kept; the concrete exclusion pass agrees. -/
theorem C4_exclusion_witness :
    lookupFormat cfgC4 "siconca" "abs" = some ⟨true, 3⟩ ∧
    lookupFormat cfgC4 "siconca" "anom" = some ⟨false, 7⟩ ∧
    remove_missing_dates cfgC4 (fun _ => [-2]) [(Hemi.nh, 0), (Hemi.nh, 10)] =
      some [(Hemi.nh, 10)] ∧
    (∃ kept, remove_missing_dates cfgC4 (fun _ => [-2])
        [(Hemi.nh, 0), (Hemi.nh, 10)] = some kept ∧
      ∀ hemisphere fsd, ((hemisphere, fsd) ∈ kept ↔
        ((hemisphere, fsd) ∈ [(Hemi.nh, 0), (Hemi.nh, 10)] ∧
          ¬ ∃ k : Nat, 1 ≤ k ∧
            k ≤ max (if (true : Bool) then 3 else 0) (if (false : Bool) then 7 else 0) ∧
            fsd - (k : Int) ∈ (fun (_ : Hemi) => [(-2 : Int)]) hemisphere))) :=
  ⟨by decide, by decide, by decide,
   C4_exclusion_iff_missing_lag cfgC4 (fun _ => [-2]) [(Hemi.nh, 0), (Hemi.nh, 10)]
     ⟨true, 3⟩ ⟨false, 7⟩ (by decide) (by decide) (Or.inl rfl)⟩

/-! ## C7 and C9: the per-lead loss-weight rescaling -/

lemma sample_weight_eval (env : LoaderEnv) (hemisphere : Hemi) (forecast_start_date : Date)
    (forecast_leadtime_idx : Nat) (mask : Grid Bool)
    (hmiss : (forecast_start_date + (forecast_leadtime_idx : Int)) ∉
      env.missing_dates hemisphere)
    (hmask : determine_active_grid_cell_mask env hemisphere
      (forecast_start_date + (forecast_leadtime_idx : Int)) = some mask)
    (hlwm : env.cfg.loss_weight_months = true) :
    sample_weight env hemisphere forecast_start_date forecast_leadtime_idx =
      some ((mask.emap fun b => EFloat.fin (if b then 1 else 0)).emap
        fun x => x.mul ((EFloat.fin 33928).div
          ((mask.emap fun b => EFloat.fin (if b then 1 else 0)).sum))) := by
  simp only [sample_weight, any_beq_false_of_not_mem hmiss, Bool.false_eq_true, if_false,
    hmask, Option.map_some', hlwm, if_true]

lemma mask_cast_sum (mask : Grid Bool) :
    (mask.emap fun b => EFloat.fin (if b then 1 else 0)).sum =
      EFloat.fin ((mask.toList.count true : ℚ)) := by
  have h1 : (mask.emap fun b => EFloat.fin (if b then 1 else 0)).sum =
      EFloat.fin ((mask.toList.map fun b => if b then (1 : ℚ) else 0).sum) := by
    rw [Grid.sum, Grid.toList_emap]
    exact esum_fin_map (fun b => if b then (1 : ℚ) else 0) mask.toList
  rw [h1, sum_boolind]

/-- C7 (amended): when `loss_weight_months` is enabled, for every sample and
lead whose target date is not missing and whose composed active-grid-cell
mask has at least one active cell, the sum of the lead's weight channel is
the fixed constant 33928 — the same for every calendar month, hemisphere,
and environment. -/
theorem C7_weight_sum_constant (env : LoaderEnv) (hemisphere : Hemi)
    (forecast_start_date : Date) (forecast_leadtime_idx : Nat) (mask : Grid Bool)
    (hlwm : env.cfg.loss_weight_months = true)
    (hmiss : (forecast_start_date + (forecast_leadtime_idx : Int)) ∉
      env.missing_dates hemisphere)
    (hmask : determine_active_grid_cell_mask env hemisphere
      (forecast_start_date + (forecast_leadtime_idx : Int)) = some mask)
    (hcnt : mask.toList.count true ≠ 0) :
    ((sample_weight env hemisphere forecast_start_date forecast_leadtime_idx).map
      Grid.sum) = some (EFloat.fin 33928) := by
  rw [sample_weight_eval env hemisphere forecast_start_date forecast_leadtime_idx mask
    hmiss hmask hlwm, Option.map_some']
  have hcnt' : ((mask.toList.count true : ℚ)) ≠ 0 := Nat.cast_ne_zero.mpr hcnt
  have hdiv : (EFloat.fin 33928).div (EFloat.fin ((mask.toList.count true : ℚ))) =
      EFloat.fin (33928 / (mask.toList.count true : ℚ)) := by
    simp [EFloat.div, hcnt']
  rw [mask_cast_sum, hdiv]
  have hcomp : ((mask.emap fun b => EFloat.fin (if b then 1 else 0)).emap
      fun x => x.mul (EFloat.fin (33928 / (mask.toList.count true : ℚ)))) =
      mask.emap fun b =>
        EFloat.fin ((if b then (1 : ℚ) else 0) * (33928 / (mask.toList.count true : ℚ))) := rfl
  rw [hcomp]
  rw [Grid.sum, Grid.toList_emap]
  rw [esum_fin_map (fun b => (if b then (1 : ℚ) else 0) *
    (33928 / (mask.toList.count true : ℚ))) mask.toList]
  rw [sum_boolind_mul]
  congr 1
  rw [mul_div_cancel₀ _ hcnt']

/-- Concrete environment for the C7 witness: 1×1 grid fully active,
reweighting on, epoch-2 hole (empty) selected. -/
def envC7 : LoaderEnv :=
  { cfg :=
    { input_data := [("siconca",
        VarDict.timevarying [("abs", ⟨true, 1⟩), ("anom", ⟨false, 0⟩)])],
      n_forecast_days := 1,
      batch_size := 1,
      raw_data_shape := (1, 1),
      loss_weight_months := true },
    missing_dates := fun _ => [],
    artifact := fun _ _ _ _ => none,
    active_grid_cell_mask := fun _ _ => Grid.full (1, 1) true,
    polarhole1_mask := Grid.full (1, 1) false,
    polarhole2_mask := Grid.full (1, 1) false,
    polarhole1_final_date := -100,
    polarhole2_final_date := 100,
    meta_land := fun _ => none,
    meta_circday := fun _ _ _ => none }

/-- Witness for the amended C7 at a concrete sample whose composed mask has
one active cell: the weight-channel sum is exactly 33928. -/
theorem C7_weight_sum_witness :
    envC7.cfg.loss_weight_months = true ∧
    ((0 : Int) + ((0 : Nat) : Int)) ∉ envC7.missing_dates Hemi.nh ∧
    determine_active_grid_cell_mask envC7 Hemi.nh ((0 : Int) + ((0 : Nat) : Int)) =
      some (Grid.full (1, 1) true) ∧
    (Grid.full (1, 1) true).toList.count true ≠ 0 ∧
    ((sample_weight envC7 Hemi.nh 0 0).map Grid.sum) = some (EFloat.fin 33928) :=
  ⟨rfl, by decide, rfl, by decide,
   C7_weight_sum_constant envC7 Hemi.nh 0 0 (Grid.full (1, 1) true) rfl (by decide) rfl
     (by decide)⟩

lemma sample_weight_cells_nan (env : LoaderEnv) (hemisphere : Hemi)
    (forecast_start_date : Date) (forecast_leadtime_idx : Nat) (mask : Grid Bool)
    (hmiss : (forecast_start_date + (forecast_leadtime_idx : Int)) ∉
      env.missing_dates hemisphere)
    (hmask : determine_active_grid_cell_mask env hemisphere
      (forecast_start_date + (forecast_leadtime_idx : Int)) = some mask)
    (hlwm : env.cfg.loss_weight_months = true)
    (hzero : mask.toList.count true = 0) :
    sample_weight env hemisphere forecast_start_date forecast_leadtime_idx =
      some ((mask.emap fun b => EFloat.fin (if b then 1 else 0)).emap
        fun x => x.mul ((EFloat.fin 33928).div
          ((mask.emap fun b => EFloat.fin (if b then 1 else 0)).sum))) ∧
    ∀ i j, i < mask.rows → j < mask.cols →
      ((mask.emap fun b => EFloat.fin (if b then 1 else 0)).emap
        fun x => x.mul ((EFloat.fin 33928).div
          ((mask.emap fun b => EFloat.fin (if b then 1 else 0)).sum))).data i j =
        EFloat.nan := by
  refine ⟨sample_weight_eval _ _ _ _ _ hmiss hmask hlwm, ?_⟩
  intro i j hi hj
  have hcell : mask.data i j = false := by
    cases hb : mask.data i j
    · rfl
    · have hmem := Grid.data_mem_toList mask i j hi hj
      rw [hb] at hmem
      rw [List.count_eq_zero] at hzero
      exact absurd hmem hzero
  show (EFloat.fin (if mask.data i j then 1 else 0)).mul
      ((EFloat.fin 33928).div
        ((mask.emap fun b => EFloat.fin (if b then 1 else 0)).sum)) = EFloat.nan
  rw [mask_cast_sum, hzero, hcell]
  norm_num [EFloat.div, EFloat.mul]

/-- C9: if reweighting is on and a lead's composed active-grid-cell mask has
no true cell (and the target date is not missing), every cell of the weight
channel is NaN — non-finite values, not an error and not all-zero weights. -/
theorem C9_empty_mask_gives_nan_weights (env : LoaderEnv) (hemisphere : Hemi)
    (forecast_start_date : Date) (forecast_leadtime_idx : Nat) (mask : Grid Bool)
    (hlwm : env.cfg.loss_weight_months = true)
    (hmiss : (forecast_start_date + (forecast_leadtime_idx : Int)) ∉
      env.missing_dates hemisphere)
    (hmask : determine_active_grid_cell_mask env hemisphere
      (forecast_start_date + (forecast_leadtime_idx : Int)) = some mask)
    (hzero : mask.toList.count true = 0) :
    ∃ w, sample_weight env hemisphere forecast_start_date forecast_leadtime_idx = some w ∧
      w.rows = mask.rows ∧ w.cols = mask.cols ∧
      ∀ i j, i < mask.rows → j < mask.cols → w.data i j = EFloat.nan := by
  obtain ⟨hev, hcells⟩ := sample_weight_cells_nan env hemisphere forecast_start_date
    forecast_leadtime_idx mask hmiss hmask hlwm hzero
  exact ⟨_, hev, rfl, rfl, hcells⟩

/-- Concrete environment with an all-false 1×1 land/ocean mask and
reweighting on: the composed active mask has no true cell. -/
def envEmptyMask : LoaderEnv :=
  { cfg :=
    { input_data := [("siconca",
        VarDict.timevarying [("abs", ⟨true, 1⟩), ("anom", ⟨false, 0⟩)])],
      n_forecast_days := 1,
      batch_size := 1,
      raw_data_shape := (1, 1),
      loss_weight_months := true },
    missing_dates := fun _ => [],
    artifact := fun _ _ _ _ => none,
    active_grid_cell_mask := fun _ _ => Grid.full (1, 1) false,
    polarhole1_mask := Grid.full (1, 1) false,
    polarhole2_mask := Grid.full (1, 1) false,
    polarhole1_final_date := -100,
    polarhole2_final_date := 100,
    meta_land := fun _ => none,
    meta_circday := fun _ _ _ => none }

lemma grid_sum_1x1_nan (g : Grid EFloat) (h1 : g.rows = 1) (h2 : g.cols = 1)
    (hv : g.data 0 0 = EFloat.nan) : Grid.sum g = EFloat.nan := by
  rw [Grid.sum, Grid.toList, h1, h2]
  rw [show List.range 1 = [0] from rfl]
  simp [esum, hv, EFloat.add]

/-- C7 counterexample: with reweighting on, a non-missing target date and an
all-false composed mask, the weight-channel sum is NaN, not the fixed
constant — so the unconditional claim fails. -/
theorem C7_counterexample :
    envEmptyMask.cfg.loss_weight_months = true ∧
    ((0 : Int) + ((0 : Nat) : Int)) ∉ envEmptyMask.missing_dates Hemi.nh ∧
    ((sample_weight envEmptyMask Hemi.nh 0 0).map Grid.sum) = some EFloat.nan ∧
    EFloat.nan ≠ EFloat.fin 33928 := by
  refine ⟨rfl, by decide, ?_, by decide⟩
  obtain ⟨hev, hcells⟩ := sample_weight_cells_nan envEmptyMask Hemi.nh 0 0
    (Grid.full (1, 1) false) (by decide) rfl rfl (by decide)
  rw [hev, Option.map_some']
  congr 1
  exact grid_sum_1x1_nan _ rfl rfl (hcells 0 0 (by decide) (by decide))

/-- Witness for C9 at the concrete empty-mask environment. -/
theorem C9_empty_mask_witness :
    envEmptyMask.cfg.loss_weight_months = true ∧
    ((0 : Int) + ((0 : Nat) : Int)) ∉ envEmptyMask.missing_dates Hemi.nh ∧
    determine_active_grid_cell_mask envEmptyMask Hemi.nh ((0 : Int) + ((0 : Nat) : Int)) =
      some (Grid.full (1, 1) false) ∧
    (Grid.full (1, 1) false).toList.count true = 0 ∧
    (∃ w, sample_weight envEmptyMask Hemi.nh 0 0 = some w ∧
      w.rows = (Grid.full (1, 1) false).rows ∧ w.cols = (Grid.full (1, 1) false).cols ∧
      ∀ i j, i < (Grid.full (1, 1) false).rows → j < (Grid.full (1, 1) false).cols →
        w.data i j = EFloat.nan) :=
  ⟨rfl, by decide, rfl, by decide,
   C9_empty_mask_gives_nan_weights envEmptyMask Hemi.nh 0 0 (Grid.full (1, 1) false) rfl
     (by decide) rfl (by decide)⟩

/-! ## C8: batch slicing, batch count, and epoch partition -/

lemma getitem_IDs_eq_drop_take [Inhabited α] (ids : List α) (B i : Nat) :
    getitem_IDs ids B i = (ids.drop (i * B)).take B := by
  have hsB : (i + 1) * B = i * B + B := by ring
  apply List.ext_getElem?
  intro n
  simp only [getitem_IDs, hsB]
  rcases lt_or_ge n (min (i * B + B) ids.length - i * B) with hn | hn
  · rw [List.getElem?_map, List.getElem?_range' _ _ hn, Option.map_some']
    simp only [one_mul]
    have hin : i * B + n < ids.length := by omega
    have hnB : n < B := by omega
    rw [List.getD_eq_getElem?_getD, List.getElem?_eq_getElem hin]
    rw [List.getElem?_take_of_lt hnB, List.getElem?_drop]
    rw [List.getElem?_eq_getElem hin]
    rfl
  · rw [List.getElem?_eq_none (by simp [List.length_range']; omega)]
    rw [List.getElem?_eq_none (by simp [List.length_take, List.length_drop]; omega)]

lemma dataloader_len_eq_div (N B : Nat) (hB : 1 ≤ B) :
    dataloader_len N B = (N + B - 1) / B := by
  unfold dataloader_len
  have hB0 : 0 < B := by omega
  have hBQ : (0 : ℚ) < B := by exact_mod_cast hB0
  apply le_antisymm
  · apply Nat.ceil_le.mpr
    rw [div_le_iff₀ hBQ]
    have h := Nat.div_add_mod (N + B - 1) B
    have h2 : (N + B - 1) % B < B := Nat.mod_lt _ hB0
    have h3 : N ≤ B * ((N + B - 1) / B) := by omega
    rw [mul_comm]
    exact_mod_cast h3
  · have hle := Nat.le_ceil ((N : ℚ) / B)
    rw [div_le_iff₀ hBQ] at hle
    have hNat : N ≤ B * Nat.ceil ((N : ℚ) / B) := by
      have hq : (N : ℚ) ≤ (B * Nat.ceil ((N : ℚ) / B) : ℕ) := by
        push_cast
        linarith
      exact_mod_cast hq
    rw [Nat.div_le_iff_le_mul_add_pred hB0]
    omega

lemma range_flatMap_getitem [Inhabited α] :
    ∀ (m : Nat) (ids : List α) (B : Nat), 1 ≤ B → m = dataloader_len ids.length B →
      (List.range m).flatMap (getitem_IDs ids B) = ids := by
  intro m
  induction m with
  | zero =>
      intro ids B hB hm
      have hN : ids.length = 0 := by
        by_contra h
        rw [dataloader_len_eq_div _ _ hB] at hm
        have h1 : 1 ≤ (ids.length + B - 1) / B := by
          rw [Nat.one_le_div_iff (by omega)]
          omega
        omega
      rw [List.length_eq_zero] at hN
      rw [hN]
      rfl
  | succ m ih =>
      intro ids B hB hm
      have hN : 1 ≤ ids.length := by
        by_contra h
        have h0 : ids.length = 0 := by omega
        rw [dataloader_len_eq_div _ _ hB, h0] at hm
        rw [Nat.div_eq_of_lt (by omega)] at hm
        omega
      have hm2 : m = dataloader_len (ids.drop B).length B := by
        rw [dataloader_len_eq_div _ _ hB] at hm
        rw [dataloader_len_eq_div _ _ hB]
        rw [List.length_drop]
        rcases le_or_lt B ids.length with hBN | hBN
        · have e1 : ids.length - B + B - 1 = ids.length - 1 := by omega
          have e2 : ids.length + B - 1 = (ids.length - 1) + B := by omega
          rw [e2, Nat.add_div_right _ (by omega)] at hm
          rw [e1]
          omega
        · have e1 : ids.length - B = 0 := by omega
          have e3 : (ids.length + B - 1) / B = 1 := by
            apply Nat.div_eq_of_lt_le
            · omega
            · omega
          rw [e1]
          rw [Nat.div_eq_of_lt (by omega)]
          omega
      have hshift : ∀ i : Nat, getitem_IDs ids B (i + 1) = getitem_IDs (ids.drop B) B i := by
        intro i
        rw [getitem_IDs_eq_drop_take, getitem_IDs_eq_drop_take]
        rw [List.drop_drop]
        congr 2
        ring
      rw [List.range_succ_eq_map, List.flatMap_cons]
      have hcong : ((List.range m).map (fun i => i + 1)).flatMap (getitem_IDs ids B) =
          (List.range m).flatMap (getitem_IDs (ids.drop B) B) := by
        simp only [List.flatMap_map]
        congr 1
        funext a
        exact hshift a
      rw [hcong, ih (ids.drop B) B hB hm2]
      rw [getitem_IDs_eq_drop_take]
      rw [Nat.zero_mul, List.drop_zero]
      exact List.take_append_drop B ids

/-- C8: with batch size `B ≥ 1`, (1) batch `i` is exactly the slice of the
current sample order at positions `[i*B, min((i+1)*B, N))`; (2) the reported
number of batches is `ceil(N / B)` = `(N+B-1)/B`; (3) the batches of one
epoch, concatenated in order, reproduce the sample list exactly — a
partition with no duplicates; (4) when `N ≥ 1`, the last batch has
`N mod B` samples when that is nonzero, else `B`. -/
theorem C8_batch_partition (ids : List (Hemi × Date)) (B : Nat) (hB : 1 ≤ B) :
    (∀ i, getitem_IDs ids B i = (ids.drop (i * B)).take B) ∧
    dataloader_len ids.length B = (ids.length + B - 1) / B ∧
    (List.range (dataloader_len ids.length B)).flatMap (getitem_IDs ids B) = ids ∧
    (1 ≤ ids.length →
      (getitem_IDs ids B (dataloader_len ids.length B - 1)).length =
        if ids.length % B = 0 then B else ids.length % B) := by
  refine ⟨fun i => getitem_IDs_eq_drop_take ids B i, dataloader_len_eq_div _ _ hB,
    range_flatMap_getitem _ ids B hB rfl, ?_⟩
  intro hN
  rw [getitem_IDs_eq_drop_take]
  rw [List.length_take, List.length_drop]
  rw [dataloader_len_eq_div _ _ hB]
  have e2 : ids.length + B - 1 = (ids.length - 1) + B := by omega
  rw [e2, Nat.add_div_right _ (by omega), Nat.add_sub_cancel]
  obtain ⟨q, hq⟩ : ∃ q, (ids.length - 1) / B = q := ⟨_, rfl⟩
  obtain ⟨r, hrdef⟩ : ∃ r, (ids.length - 1) % B = r := ⟨_, rfl⟩
  have h := Nat.div_add_mod (ids.length - 1) B
  rw [hq, hrdef] at h
  have h2 : r < B := by
    rw [← hrdef]
    exact Nat.mod_lt _ (by omega)
  have hNeq : ids.length = B * q + (r + 1) := by omega
  have hmod : ids.length % B = (r + 1) % B := by
    conv_lhs => rw [hNeq]
    rw [Nat.mul_add_mod]
  rw [hq, hmod]
  rw [show q * B = B * q from Nat.mul_comm q B]
  rcases Nat.lt_or_ge (r + 1) B with hr | hr
  · rw [Nat.mod_eq_of_lt hr, if_neg (by omega)]
    omega
  · have hrB : r + 1 = B := by omega
    rw [hrB, Nat.mod_self, if_pos rfl]
    omega

/-- Concrete sample order for the C8 witness: five samples, batch size 2. -/
def idsC8 : List (Hemi × Date) :=
  [(Hemi.nh, 0), (Hemi.nh, 1), (Hemi.nh, 2), (Hemi.nh, 3), (Hemi.nh, 4)]

/-- Witness for C8 with N = 5 and B = 2: three batches, and the last batch
has 5 mod 2 = 1 sample. -/
theorem C8_batch_partition_witness :
    (1 : Nat) ≤ 2 ∧
    dataloader_len idsC8.length 2 = 3 ∧
    ((∀ i, getitem_IDs idsC8 2 i = (idsC8.drop (i * 2)).take 2) ∧
     dataloader_len idsC8.length 2 = (idsC8.length + 2 - 1) / 2 ∧
     (List.range (dataloader_len idsC8.length 2)).flatMap (getitem_IDs idsC8 2) = idsC8 ∧
     (1 ≤ idsC8.length →
       (getitem_IDs idsC8 2 (dataloader_len idsC8.length 2 - 1)).length =
         if idsC8.length % 2 = 0 then 2 else idsC8.length % 2)) :=
  ⟨by decide, ((C8_batch_partition idsC8 2 (by decide)).2.1).trans rfl,
   C8_batch_partition idsC8 2 (by decide)⟩
